import Mathlib

/-!
Verification of the gate-by-gate attenuation-correction core described by
the specification of this repository.  The repository itself is notebook
material that calls the algorithm in an external library
(src/.travis.yml, lines 648-699 call wrl.atten.correctAttenuationKraemer),
so the correction itself is modelled from the specification, while the
demonstrated workflow around the call (units and ordering of the
processing steps) is embedded from the source file directly.
Reflectivity values are modelled as rationals: the model is exact, so the
floating-point caveats of the specification (finite values, no NaN) hold
by construction.
-/

namespace AttenCorr

/-- Modelled from the spec: the missing library function
correctAttenuationKraemer is specified with a unit factor reconciling
attenuation-rate units with gate spacing; it must be a fixed, documented
constant, which this definition is. -/
def unit_factor : ℚ := 1

/-- Modelled from the spec: the immutable configuration bundle
CorrectionParameters of section 3 - power-law coefficient a, power-law
exponent b, gate spacing, optional clip on specific attenuation and
optional clip on cumulative PIA.  The exponent is modelled as a natural
number so that the power law is exact over the rationals. -/
structure CorrectionParameters where
  a : ℚ
  b : ℕ
  gate_spacing : ℚ
  max_specific_attenuation : Option ℚ
  max_pia : Option ℚ
  deriving DecidableEq

/-- Modelled from the spec: the raw power-law specific attenuation
k = a * Z^b for a (partially corrected) linear reflectivity Z. -/
def kRaw (p : CorrectionParameters) (z : ℚ) : ℚ := p.a * z ^ p.b

/-- Clip a value to an optional upper bound (none means no clipping). -/
def clipOpt : Option ℚ → ℚ → ℚ
  | none, x => x
  | some M, x => min x M

/-- Modelled from the spec: the specific attenuation actually used at a
gate - the raw power-law value of the reflectivity already corrected
with the running PIA, clipped to the optional configured maximum before
any use. -/
def kUsed (p : CorrectionParameters) (piaPrev z : ℚ) : ℚ :=
  clipOpt p.max_specific_attenuation (kRaw p (z + piaPrev))

/-- Modelled from the spec: one update step of the left-to-right
recursion, pia[i] = pia[i-1] + k_i * gate_spacing * unit_factor, clipped
to the optional maximum PIA before it is used to correct the next
gate. -/
def stepPia (p : CorrectionParameters) (piaPrev z : ℚ) : ℚ :=
  clipOpt p.max_pia (piaPrev + kUsed p piaPrev z * p.gate_spacing * unit_factor)

/-- Modelled from the spec: the PIA profile from a running PIA value over
the remaining gates; the strict left fold of stepPia, where the state is
exactly the running PIA value. -/
def piaFrom (p : CorrectionParameters) (piaPrev : ℚ) : List ℚ → List ℚ
  | [] => []
  | z :: rest => stepPia p piaPrev z :: piaFrom p (stepPia p piaPrev z) rest

/-- Modelled from the spec: precondition on a beam - length at least one
and all values nonnegative (all rationals are finite, so the finiteness
precondition is implicit in the model). -/
def validBeam (beam : List ℚ) : Prop := beam ≠ [] ∧ ∀ z ∈ beam, 0 ≤ z

instance : DecidablePred validBeam := fun beam =>
  inferInstanceAs (Decidable (beam ≠ [] ∧ ∀ z ∈ beam, 0 ≤ z))

/-- Nonnegativity of an optional clip bound. -/
def nonnegOpt : Option ℚ → Prop
  | none => True
  | some M => 0 ≤ M

instance : DecidablePred nonnegOpt := fun o =>
  match o with
  | none => .isTrue trivial
  | some M => inferInstanceAs (Decidable (0 ≤ M))

/-- Modelled from the spec: validity of a configuration - a, b and the
gate spacing positive, the optional clip maxima not below zero. -/
def validParams (p : CorrectionParameters) : Prop :=
  0 < p.a ∧ 0 < p.b ∧ 0 < p.gate_spacing ∧
    nonnegOpt p.max_specific_attenuation ∧ nonnegOpt p.max_pia

instance : DecidablePred validParams := fun p =>
  inferInstanceAs (Decidable (0 < p.a ∧ 0 < p.b ∧ 0 < p.gate_spacing ∧
    nonnegOpt p.max_specific_attenuation ∧ nonnegOpt p.max_pia))

/-- Modelled from the spec: the error taxonomy of section 7. -/
inductive CorrectionError
  | InvalidInputError
  | InvalidConfigurationError
  deriving DecidableEq

/-- Modelled from the spec: the missing library operation correct - the
beam is validated, then the configuration, then the gate-by-gate
recursion runs from PIA zero and corrected[i] = beam[i] + pia[i]; a
validation failure aborts the whole call with no partial output. -/
def correct (beam : List ℚ) (p : CorrectionParameters) :
    Except CorrectionError (List ℚ × List ℚ) :=
  if validBeam beam then
    if validParams p then
      .ok (piaFrom p 0 beam, List.zipWith (· + ·) beam (piaFrom p 0 beam))
    else .error .InvalidConfigurationError
  else .error .InvalidInputError

/-- Modelled from the spec: the sweep-level operation correct_sweep
applies correct independently to every beam (row). -/
def correct_sweep (sweep : List (List ℚ)) (p : CorrectionParameters) :
    List (Except CorrectionError (List ℚ × List ℚ)) :=
  sweep.map (fun beam => correct beam p)

/-- Modelled from the spec: whether the stability guard clips at one
step, on the specific attenuation or on the cumulative PIA (the
diagnostic observable of section 7). -/
def stepClipped (p : CorrectionParameters) (piaPrev z : ℚ) : Bool :=
  (match p.max_specific_attenuation with
    | none => false
    | some M => decide (M < kRaw p (z + piaPrev))) ||
  (match p.max_pia with
    | none => false
    | some M =>
        decide (M < piaPrev + kUsed p piaPrev z * p.gate_spacing * unit_factor))

/-- Modelled from the spec: the count of clipped gates in a run. -/
def clippedGates (p : CorrectionParameters) (piaPrev : ℚ) : List ℚ → ℕ
  | [] => 0
  | z :: rest =>
      (if stepClipped p piaPrev z then 1 else 0) +
        clippedGates p (stepPia p piaPrev z) rest

/-- The processing steps applied to the reflectivity field in the
demonstrated workflow notebook (src/.travis.yml, lines 540-767), in
execution order. -/
inductive WorkflowStep
  | readDX            -- data, metadata = wrl.io.readDX(filename), line 540
  | filterGabella     -- clutter = wrl.clutter.filter_gabella(data,...), line 592
  | interpolatePolar  -- data_no_clutter = wrl.ipol.interpolate_polar, line 611
  | addPiaKraemer     -- pia = wrl.atten.correctAttenuationKraemer(data_no_clutter)
                      -- and data_attcorr = data_no_clutter + pia, lines 666-667
  | idecibel          -- wrl.trafo.idecibel(data_attcorr), line 751
  | z2r               -- R = wrl.zr.z2r(...), line 751
  | r2depth           -- depths = wrl.trafo.r2depth(R, 300), line 767
  deriving DecidableEq

/-- The unit of the reflectivity/rainfall field along the workflow. -/
inductive FieldUnit
  | dBZ
  | linearZ
  | rainRate
  | rainDepth
  deriving DecidableEq

/-- Unit semantics of each workflow step, from the source: readDX yields
dBZ data and the attenuation-corrected field is still plotted with
ylabel dBZ (line 688); adding the PIA is dB-additive and keeps the unit;
idecibel is the dB-to-linear transform, applied at line 751 just before
the Z-R conversion. -/
def stepUnit : FieldUnit → WorkflowStep → FieldUnit
  | _, .readDX => .dBZ
  | u, .filterGabella => u
  | u, .interpolatePolar => u
  | u, .addPiaKraemer => u
  | _, .idecibel => .linearZ
  | _, .z2r => .rainRate
  | _, .r2depth => .rainDepth

/-- The workflow order from the notebook. -/
def workflow : List WorkflowStep :=
  [.readDX, .filterGabella, .interpolatePolar, .addPiaKraemer,
   .idecibel, .z2r, .r2depth]

/-- The unit the reflectivity field is in at the point a given step of
the workflow is computed. -/
def unitBefore (s : WorkflowStep) : FieldUnit :=
  (workflow.takeWhile (fun t => decide (t ≠ s))).foldl stepUnit .dBZ

/-- The running PIA entering gate i: zero at the first gate, the PIA of
the previous gate afterwards. -/
def prevPia (p : CorrectionParameters) (beam : List ℚ) : ℕ → ℚ
  | 0 => 0
  | i + 1 => (piaFrom p 0 beam).getD i 0

/-- The configuration of the concrete scenario in the specification:
a = 1, b = 1, gate spacing 1, no clipping configured. -/
def demoParams : CorrectionParameters := ⟨1, 1, 1, none, none⟩

lemma piaFrom_length (p : CorrectionParameters) (piaPrev : ℚ) :
    ∀ beam : List ℚ, (piaFrom p piaPrev beam).length = beam.length
  | [] => rfl
  | z :: rest => by
      simp only [piaFrom, List.length_cons]
      exact congrArg Nat.succ (piaFrom_length p (stepPia p piaPrev z) rest)

lemma piaFrom_getD_succ (p : CorrectionParameters) :
    ∀ (beam : List ℚ) (piaPrev : ℚ) (i : ℕ), i + 1 < beam.length →
      (piaFrom p piaPrev beam).getD (i + 1) 0 =
        stepPia p ((piaFrom p piaPrev beam).getD i 0) (beam.getD (i + 1) 0)
  | [], _, _, h => by simp at h
  | z :: rest, piaPrev, 0, h => by
      match rest, h with
      | w :: rest2, _ =>
          simp [piaFrom, List.getD_cons_succ, List.getD_cons_zero]
  | z :: rest, piaPrev, i + 1, h => by
      have hr : i + 1 < rest.length := by
        simpa [Nat.succ_lt_succ_iff] using h
      simpa [piaFrom, List.getD_cons_succ] using
        piaFrom_getD_succ p rest (stepPia p piaPrev z) i hr

lemma piaFrom_getD (p : CorrectionParameters) (beam : List ℚ) (i : ℕ)
    (h : i < beam.length) :
    (piaFrom p 0 beam).getD i 0 =
      stepPia p (prevPia p beam i) (beam.getD i 0) := by
  cases i with
  | zero =>
      match beam, h with
      | z :: rest, _ => simp [piaFrom, prevPia]
  | succ i => simpa [prevPia] using piaFrom_getD_succ p beam 0 i h

lemma clipOpt_nonneg {o : Option ℚ} {x : ℚ} (ho : nonnegOpt o) (hx : 0 ≤ x) :
    0 ≤ clipOpt o x := by
  cases o with
  | none => exact hx
  | some M => exact le_min hx ho

lemma clipOpt_le_self {o : Option ℚ} (x : ℚ) : clipOpt o x ≤ x := by
  cases o with
  | none => exact le_rfl
  | some M => exact min_le_left x M

lemma kRaw_nonneg {p : CorrectionParameters} {z : ℚ} (ha : 0 ≤ p.a)
    (hz : 0 ≤ z) : 0 ≤ kRaw p z :=
  mul_nonneg ha (pow_nonneg hz p.b)

lemma kUsed_nonneg {p : CorrectionParameters} {piaPrev z : ℚ}
    (hp : validParams p) (h : 0 ≤ z + piaPrev) : 0 ≤ kUsed p piaPrev z :=
  clipOpt_nonneg hp.2.2.2.1 (kRaw_nonneg hp.1.le h)

lemma stepPia_nonneg {p : CorrectionParameters} {piaPrev z : ℚ}
    (hp : validParams p) (hprev : 0 ≤ piaPrev) (hz : 0 ≤ z) :
    0 ≤ stepPia p piaPrev z := by
  refine clipOpt_nonneg hp.2.2.2.2 (add_nonneg hprev ?_)
  have hk : 0 ≤ kUsed p piaPrev z := kUsed_nonneg hp (add_nonneg hz hprev)
  have huf : (0 : ℚ) ≤ unit_factor := by norm_num [unit_factor]
  exact mul_nonneg (mul_nonneg hk hp.2.2.1.le) huf

lemma stepPia_noclip {p : CorrectionParameters}
    (hk : p.max_specific_attenuation = none) (hm : p.max_pia = none)
    (piaPrev z : ℚ) :
    stepPia p piaPrev z =
      piaPrev + p.a * (z + piaPrev) ^ p.b * p.gate_spacing * unit_factor := by
  simp [stepPia, kUsed, kRaw, clipOpt, hk, hm]

lemma stepPia_ge {p : CorrectionParameters} {piaPrev z : ℚ}
    (hp : validParams p) (hk : p.max_specific_attenuation = none)
    (hm : p.max_pia = none) (hprev : 0 ≤ piaPrev) (hz : 0 ≤ z) :
    piaPrev ≤ stepPia p piaPrev z := by
  rw [stepPia_noclip hk hm]
  have h1 : 0 ≤ p.a * (z + piaPrev) ^ p.b * p.gate_spacing * unit_factor := by
    have huf : (0 : ℚ) ≤ unit_factor := by norm_num [unit_factor]
    exact mul_nonneg
      (mul_nonneg (kRaw_nonneg hp.1.le (add_nonneg hz hprev)) hp.2.2.1.le) huf
  linarith

lemma piaFrom_mem_nonneg (p : CorrectionParameters) (hp : validParams p) :
    ∀ (beam : List ℚ) (piaPrev : ℚ), 0 ≤ piaPrev → (∀ z ∈ beam, 0 ≤ z) →
      ∀ x ∈ piaFrom p piaPrev beam, 0 ≤ x
  | [], _, _, _, x, hx => absurd hx (List.not_mem_nil x)
  | z :: rest, piaPrev, hprev, hbeam, x, hx => by
      have hz : 0 ≤ z := hbeam z (List.mem_cons_self z rest)
      have hstep : 0 ≤ stepPia p piaPrev z := stepPia_nonneg hp hprev hz
      rcases List.mem_cons.mp hx with h | h
      · exact h ▸ hstep
      · exact piaFrom_mem_nonneg p hp rest (stepPia p piaPrev z) hstep
          (fun w hw => hbeam w (List.mem_cons_of_mem z hw)) x h

lemma piaFrom_mem_le (p : CorrectionParameters) (M : ℚ)
    (hM : p.max_pia = some M) :
    ∀ (beam : List ℚ) (piaPrev : ℚ), ∀ x ∈ piaFrom p piaPrev beam, x ≤ M
  | [], _, x, hx => absurd hx (List.not_mem_nil x)
  | z :: rest, piaPrev, x, hx => by
      rcases List.mem_cons.mp hx with h | h
      · subst h
        simp only [stepPia, hM, clipOpt]
        exact min_le_right _ M
      · exact piaFrom_mem_le p M hM rest (stepPia p piaPrev z) x h

lemma piaFrom_getD_nonneg {p : CorrectionParameters} {beam : List ℚ}
    (hp : validParams p) (hbeam : ∀ z ∈ beam, 0 ≤ z) (i : ℕ)
    (h : i < beam.length) : 0 ≤ (piaFrom p 0 beam).getD i 0 := by
  have hlen : i < (piaFrom p 0 beam).length := by
    rwa [piaFrom_length]
  rw [List.getD_eq_getElem _ _ hlen]
  exact piaFrom_mem_nonneg p hp beam 0 le_rfl hbeam _ (List.getElem_mem hlen)

lemma demo_validBeam : validBeam [10, 20, 30, 100, 20] :=
  ⟨by simp, by norm_num⟩

lemma demo_validParams : validParams demoParams :=
  ⟨by norm_num [demoParams], by norm_num [demoParams],
   by norm_num [demoParams], by simp [demoParams, nonnegOpt],
   by simp [demoParams, nonnegOpt]⟩

lemma demo_correct :
    correct [10, 20, 30, 100, 20] demoParams =
      .ok ([10, 40, 110, 320, 660], [20, 60, 140, 420, 680]) := by
  rw [correct, if_pos demo_validBeam, if_pos demo_validParams]
  norm_num [piaFrom, stepPia, kUsed, kRaw, clipOpt, unit_factor, demoParams]

/-- Claim C1: the correction runs left to right; with no clipping
configured, the PIA at gate i is the previous PIA plus
a * Z^b * gate_spacing * unit_factor where Z is the reflectivity at
gate i already corrected with the previous PIA (zero before the first
gate); on beam [10, 20, 30, 100, 20] with a = 1, b = 1, spacing 1 and no
clipping this yields pia [10, 40, 110, 320, 660] and corrected
[20, 60, 140, 420, 680], each step using the previously corrected
value. -/
theorem C1_gate_by_gate_recursion (beam : List ℚ) (p : CorrectionParameters)
    (hb : validBeam beam) (hp : validParams p)
    (hk : p.max_specific_attenuation = none) (hm : p.max_pia = none) :
    (∀ i, i < beam.length →
        (piaFrom p 0 beam).getD i 0 =
          prevPia p beam i +
            p.a * (beam.getD i 0 + prevPia p beam i) ^ p.b *
              p.gate_spacing * unit_factor) ∧
    correct [10, 20, 30, 100, 20] demoParams =
      .ok ([10, 40, 110, 320, 660], [20, 60, 140, 420, 680]) := by
  refine ⟨?_, demo_correct⟩
  intro i hi
  rw [piaFrom_getD p beam i hi, stepPia_noclip hk hm]

/-- Witness for C1 at the concrete scenario of the specification. -/
theorem C1_gate_by_gate_recursion_witness :
    correct [10, 20, 30, 100, 20] demoParams =
      .ok ([10, 40, 110, 320, 660], [20, 60, 140, 420, 680]) :=
  (C1_gate_by_gate_recursion [10, 20, 30, 100, 20] demoParams
    demo_validBeam demo_validParams rfl rfl).2

/-- Claim C2: on a valid beam and configuration, correct returns a PIA
profile and a corrected profile of the same length as the beam with
corrected[i] = beam[i] + pia[i] at every gate. -/
theorem C2_output_shape (beam : List ℚ) (p : CorrectionParameters)
    (hb : validBeam beam) (hp : validParams p) :
    ∃ pia corrected, correct beam p = .ok (pia, corrected) ∧
      pia.length = beam.length ∧ corrected.length = beam.length ∧
      ∀ i, i < beam.length →
        corrected.getD i 0 = beam.getD i 0 + pia.getD i 0 := by
  refine ⟨piaFrom p 0 beam, List.zipWith (· + ·) beam (piaFrom p 0 beam),
    by rw [correct, if_pos hb, if_pos hp], piaFrom_length p 0 beam, ?_, ?_⟩
  · rw [List.length_zipWith, piaFrom_length, min_self]
  · intro i hi
    have h1 : i < (piaFrom p 0 beam).length := by rwa [piaFrom_length]
    have h2 : i < (List.zipWith (· + ·) beam (piaFrom p 0 beam)).length := by
      rw [List.length_zipWith, piaFrom_length, min_self]; exact hi
    rw [List.getD_eq_getElem _ _ h2, List.getD_eq_getElem _ _ hi,
      List.getD_eq_getElem _ _ h1, List.getElem_zipWith]

/-- Witness for C2 at the concrete scenario of the specification. -/
theorem C2_output_shape_witness :
    ∃ pia corrected,
      correct [10, 20, 30, 100, 20] demoParams = .ok (pia, corrected) ∧
      pia.length = [10, 20, 30, 100, 20].length ∧
      corrected.length = [10, 20, 30, 100, 20].length ∧
      ∀ i, i < [10, 20, 30, 100, 20].length →
        corrected.getD i 0 =
          [10, 20, 30, 100, 20].getD i 0 + pia.getD i 0 :=
  C2_output_shape [10, 20, 30, 100, 20] demoParams
    demo_validBeam demo_validParams

/-- Claim C3 counterexample: in the demonstrated workflow of the
notebook, the reflectivity field is not in linear units at the point the
attenuation correction is computed - the PIA is added to dBZ data. -/
theorem C3_counterexample :
    unitBefore .addPiaKraemer ≠ .linearZ := by decide

/-- Claim C3 (amended): at the point the attenuation correction is
computed the reflectivity field is in logarithmic dBZ units; the
dB-to-linear conversion idecibel happens outside the correction and is
applied only afterwards, so the field is still dBZ right before the
idecibel step and linear at the Z-R conversion that follows it. -/
theorem C3_dbz_at_correction :
    unitBefore .addPiaKraemer = .dBZ ∧ unitBefore .idecibel = .dBZ ∧
      unitBefore .z2r = .linearZ := by decide

/-- Claim C4: with max_specific_attenuation = M configured, the specific
attenuation used in every PIA update is at most M even when the raw
power-law value exceeds it, the update uses exactly the clipped value,
and at every gate of every beam the value used is at most M. -/
theorem C4_specific_attenuation_clipped (p : CorrectionParameters) (M : ℚ)
    (hM : p.max_specific_attenuation = some M) :
    (∀ piaPrev z, kUsed p piaPrev z ≤ M) ∧
    (∀ piaPrev z, stepPia p piaPrev z =
        clipOpt p.max_pia
          (piaPrev + kUsed p piaPrev z * p.gate_spacing * unit_factor)) ∧
    (∀ (beam : List ℚ) (i : ℕ), i < beam.length →
        kUsed p (prevPia p beam i) (beam.getD i 0) ≤ M ∧
        (piaFrom p 0 beam).getD i 0 =
          clipOpt p.max_pia (prevPia p beam i +
            kUsed p (prevPia p beam i) (beam.getD i 0) *
              p.gate_spacing * unit_factor)) := by
  have h1 : ∀ piaPrev z, kUsed p piaPrev z ≤ M := by
    intro piaPrev z
    rw [kUsed, hM]
    exact min_le_right _ M
  refine ⟨h1, fun piaPrev z => rfl, ?_⟩
  intro beam i hi
  exact ⟨h1 _ _, piaFrom_getD p beam i hi⟩

/-- Witness for C4: the scenario of the specification with clip 15 - the
specific attenuation entering gate 3 of the demo beam is clipped to at
most 15. -/
theorem C4_specific_attenuation_clipped_witness :
    kUsed ⟨1, 1, 1, some 15, none⟩ 40 100 ≤ 15 :=
  (C4_specific_attenuation_clipped ⟨1, 1, 1, some 15, none⟩ 15 rfl).1 40 100

/-- Claim C10: correct is a pure function of its two inputs - identical
inputs give identical outputs, and the embedding has no other effect
than returning the output pair. -/
theorem C10_deterministic (beam₁ beam₂ : List ℚ)
    (p₁ p₂ : CorrectionParameters) (hbeam : beam₁ = beam₂) (hp : p₁ = p₂) :
    correct beam₁ p₁ = correct beam₂ p₂ := by
  rw [hbeam, hp]

/-- Witness for C10 at the concrete scenario of the specification. -/
theorem C10_deterministic_witness :
    correct [10, 20, 30, 100, 20] demoParams =
      correct [10, 20, 30, 100, 20] demoParams :=
  C10_deterministic [10, 20, 30, 100, 20] [10, 20, 30, 100, 20]
    demoParams demoParams rfl rfl

/-- Claim C5: with no clipping bound configured, on a valid beam with at
least one positive gate and a valid configuration, the PIA profile is
element-wise nonnegative and non-decreasing in the gate index. -/
theorem C5_pia_monotone (beam : List ℚ) (p : CorrectionParameters)
    (hb : validBeam beam) (hp : validParams p)
    (hk : p.max_specific_attenuation = none) (hm : p.max_pia = none)
    (hpos : ∃ z ∈ beam, 0 < z) :
    (∀ i, i < beam.length → 0 ≤ (piaFrom p 0 beam).getD i 0) ∧
    (∀ i, i + 1 < beam.length →
        (piaFrom p 0 beam).getD i 0 ≤ (piaFrom p 0 beam).getD (i + 1) 0) := by
  have hnn : ∀ i, i < beam.length → 0 ≤ (piaFrom p 0 beam).getD i 0 :=
    fun i hi => piaFrom_getD_nonneg hp hb.2 i hi
  refine ⟨hnn, ?_⟩
  intro i hi
  have hi0 : i < beam.length := Nat.lt_of_succ_lt hi
  rw [piaFrom_getD_succ p beam 0 i hi]
  refine stepPia_ge hp hk hm (hnn i hi0) ?_
  rw [List.getD_eq_getElem _ _ hi]
  exact hb.2 _ (List.getElem_mem hi)

/-- Witness for C5 at the concrete scenario of the specification. -/
theorem C5_pia_monotone_witness :
    (∀ i, i < [(10 : ℚ), 20, 30, 100, 20].length →
        0 ≤ (piaFrom demoParams 0 [10, 20, 30, 100, 20]).getD i 0) ∧
    (∀ i, i + 1 < [(10 : ℚ), 20, 30, 100, 20].length →
        (piaFrom demoParams 0 [10, 20, 30, 100, 20]).getD i 0 ≤
          (piaFrom demoParams 0 [10, 20, 30, 100, 20]).getD (i + 1) 0) :=
  C5_pia_monotone [10, 20, 30, 100, 20] demoParams
    demo_validBeam demo_validParams rfl rfl ⟨10, by simp, by norm_num⟩

/-- Claim C6: on a valid beam and configuration the outputs are safe -
every PIA value is nonnegative, every PIA value is bounded by the
configured maximum PIA when one is configured, and every corrected value
is nonnegative (all values are rationals, hence finite and not NaN by
construction of the model). -/
theorem C6_outputs_safe (beam : List ℚ) (p : CorrectionParameters)
    (hb : validBeam beam) (hp : validParams p) :
    ∃ pia corrected, correct beam p = .ok (pia, corrected) ∧
      (∀ x ∈ pia, 0 ≤ x) ∧
      (∀ M, p.max_pia = some M → ∀ x ∈ pia, x ≤ M) ∧
      (∀ y ∈ corrected, 0 ≤ y) := by
  refine ⟨piaFrom p 0 beam, List.zipWith (· + ·) beam (piaFrom p 0 beam),
    by rw [correct, if_pos hb, if_pos hp],
    piaFrom_mem_nonneg p hp beam 0 le_rfl hb.2,
    fun M hM x hx => piaFrom_mem_le p M hM beam 0 x hx, ?_⟩
  intro y hy
  rcases List.mem_iff_getElem.mp hy with ⟨i, hlen, hval⟩
  have hib : i < beam.length := by
    rw [List.length_zipWith, piaFrom_length, min_self] at hlen
    exact hlen
  have hip : i < (piaFrom p 0 beam).length := by rwa [piaFrom_length]
  rw [← hval, List.getElem_zipWith]
  exact add_nonneg (hb.2 _ (List.getElem_mem hib))
    (piaFrom_mem_nonneg p hp beam 0 le_rfl hb.2 _ (List.getElem_mem hip))

/-- Witness for C6 at the concrete scenario of the specification. -/
theorem C6_outputs_safe_witness :
    ∃ pia corrected,
      correct [10, 20, 30, 100, 20] demoParams = .ok (pia, corrected) ∧
      (∀ x ∈ pia, 0 ≤ x) ∧
      (∀ M, demoParams.max_pia = some M → ∀ x ∈ pia, x ≤ M) ∧
      (∀ y ∈ corrected, 0 ≤ y) :=
  C6_outputs_safe [10, 20, 30, 100, 20] demoParams
    demo_validBeam demo_validParams

/-- Claim C7: for a run on a valid beam and configuration in which no
clipping was triggered, corrected[i] - pia[i] recovers beam[i] exactly
at every gate (the rational model is exact, so no tolerance is
needed). -/
theorem C7_round_trip (beam : List ℚ) (p : CorrectionParameters)
    (hb : validBeam beam) (hp : validParams p)
    (hclip : clippedGates p 0 beam = 0) :
    ∃ pia corrected, correct beam p = .ok (pia, corrected) ∧
      ∀ i, i < beam.length →
        corrected.getD i 0 - pia.getD i 0 = beam.getD i 0 := by
  refine ⟨piaFrom p 0 beam, List.zipWith (· + ·) beam (piaFrom p 0 beam),
    by rw [correct, if_pos hb, if_pos hp], ?_⟩
  intro i hi
  have h1 : i < (piaFrom p 0 beam).length := by rwa [piaFrom_length]
  have h2 : i < (List.zipWith (· + ·) beam (piaFrom p 0 beam)).length := by
    rw [List.length_zipWith, piaFrom_length, min_self]; exact hi
  rw [List.getD_eq_getElem _ _ h2, List.getD_eq_getElem _ _ hi,
    List.getD_eq_getElem _ _ h1, List.getElem_zipWith]
  ring

/-- Witness for C7: the demo run triggers no clipping and round-trips. -/
theorem C7_round_trip_witness :
    ∃ pia corrected,
      correct [10, 20, 30, 100, 20] demoParams = .ok (pia, corrected) ∧
      ∀ i, i < [(10 : ℚ), 20, 30, 100, 20].length →
        corrected.getD i 0 - pia.getD i 0 =
          [(10 : ℚ), 20, 30, 100, 20].getD i 0 :=
  C7_round_trip [10, 20, 30, 100, 20] demoParams
    demo_validBeam demo_validParams (by rfl)

/-- Claim C8: correct fails with InvalidInputError exactly when the beam
is invalid, with InvalidConfigurationError exactly when the beam is
valid but the configuration is not, succeeds exactly when both are
valid (so a triggered clipping guard never raises), and an error case
yields no output at all. -/
theorem C8_error_semantics (beam : List ℚ) (p : CorrectionParameters) :
    (correct beam p = .error .InvalidInputError ↔ ¬ validBeam beam) ∧
    (correct beam p = .error .InvalidConfigurationError ↔
      validBeam beam ∧ ¬ validParams p) ∧
    ((∃ out, correct beam p = .ok out) ↔ validBeam beam ∧ validParams p) ∧
    (0 < clippedGates p 0 beam → validBeam beam → validParams p →
      correct beam p = .ok (piaFrom p 0 beam,
        List.zipWith (· + ·) beam (piaFrom p 0 beam))) ∧
    (∀ e, correct beam p = .error e → ¬ ∃ out, correct beam p = .ok out) := by
  by_cases hb : validBeam beam <;> by_cases hp : validParams p <;>
    simp [correct, hb, hp]

/-- Witness for C8: concrete error and success cases - the empty beam is
rejected as invalid input, a configuration with a = 0 is rejected as an
invalid configuration, and the demo run succeeds. -/
theorem C8_error_semantics_witness :
    correct [] demoParams = .error .InvalidInputError ∧
    correct [10, 20, 30, 100, 20] ⟨0, 1, 1, none, none⟩ =
      .error .InvalidConfigurationError ∧
    (∃ out, correct [10, 20, 30, 100, 20] demoParams = .ok out) :=
  ⟨(C8_error_semantics [] demoParams).1.mpr (by simp [validBeam]),
   (C8_error_semantics [10, 20, 30, 100, 20] ⟨0, 1, 1, none, none⟩).2.1.mpr
     ⟨demo_validBeam, by simp [validParams]⟩,
   (C8_error_semantics [10, 20, 30, 100, 20] demoParams).2.2.1.mpr
     ⟨demo_validBeam, demo_validParams⟩⟩

/-- Claim C9: correct_sweep is the independent row-wise map of correct -
it preserves the row count, row i of the output is exactly correct on
row i of the input, a sweep of 360 identical beams yields 360 identical
output rows, and changing one input row leaves every other output row
unchanged. -/
theorem C9_sweep_rowwise (p : CorrectionParameters) :
    (∀ sweep : List (List ℚ),
        (correct_sweep sweep p).length = sweep.length) ∧
    (∀ (sweep : List (List ℚ)) (i : ℕ), i < sweep.length →
        (correct_sweep sweep p).getD i (.error .InvalidInputError) =
          correct (sweep.getD i []) p) ∧
    (∀ beam : List ℚ, correct_sweep (List.replicate 360 beam) p =
        List.replicate 360 (correct beam p)) ∧
    (∀ (sweep : List (List ℚ)) (i : ℕ) (row : List ℚ) (j : ℕ), j ≠ i →
        (correct_sweep (sweep.set i row) p).getD j
            (.error .InvalidInputError) =
          (correct_sweep sweep p).getD j (.error .InvalidInputError)) := by
  refine ⟨fun sweep => List.length_map sweep _, ?_, ?_, ?_⟩
  · intro sweep i hi
    simp only [correct_sweep]
    have h1 : i < (sweep.map (fun beam => correct beam p)).length := by
      rw [List.length_map]; exact hi
    rw [List.getD_eq_getElem _ _ h1, List.getD_eq_getElem _ _ hi,
      List.getElem_map]
  · intro beam
    rw [correct_sweep, List.map_replicate]
  · intro sweep i row j hj
    rw [correct_sweep, correct_sweep, List.map_set,
      List.getD_eq_getElem?_getD, List.getD_eq_getElem?_getD,
      List.getElem?_set_ne (Ne.symm hj)]

/-- Witness for C9: a sweep of 360 copies of the demo beam maps to 360
copies of the demo output row. -/
theorem C9_sweep_rowwise_witness :
    correct_sweep (List.replicate 360 [10, 20, 30, 100, 20]) demoParams =
      List.replicate 360 (correct [10, 20, 30, 100, 20] demoParams) :=
  (C9_sweep_rowwise demoParams).2.2.1 [10, 20, 30, 100, 20]

end AttenCorr
